import Mathlib

/-!
Verification of the peer-discovery and distributed-inference subsystem of
the latentra desktop application.

The definitions below are a shallow embedding of:
 - `DistributedInferenceService` (mode selection, distributed chat dispatch
   with local fallback, metrics ring buffer, compute-distribution view);
 - `NativeP2PDiscovery` (mDNS response ingestion, self-filtering,
   stale-peer sweeping, start/stop timer lifecycle) — the source file
   contains two variants of this class, modelled side by side as V1/V2.

Timestamps (`Date.now()`) are modelled as `Int` milliseconds; JavaScript
numbers used for percentages and averages are modelled as `ℚ`.
-/

namespace Latentra

/-! ### Mode selector (DistributedInferenceService.getOptimalMode / chat) -/

/-- `InferenceMode = 'local' | 'distributed' | 'hybrid'`. -/
inductive InferenceMode where
| localMode
| distributedMode
| hybridMode
deriving DecidableEq, Repr

/-- Message of the error thrown by `distributedChat` when the backend is
unavailable. -/
def localAIUnavailableError : String :=
  "LocalAI not available. Please start LocalAI server."

/-- `DistributedInferenceService.getOptimalMode`: `'local'` stays local,
`'distributed'` stays distributed, hybrid picks distributed exactly when the
backend is available and at least one peer is connected. -/
def getOptimalMode (configMode : InferenceMode) (localAIAvailable : Bool)
    (peerCount : Nat) : InferenceMode :=
  match configMode with
  | .localMode => .localMode
  | .distributedMode => .distributedMode
  | .hybridMode =>
      if localAIAvailable && decide (0 < peerCount) then .distributedMode
      else .localMode

/-- Observable routing outcome of one `chat` call: local execution,
distributed execution, or a surfaced error. -/
inductive RouteOutcome where
| routedLocal
| routedDistributed
| errorSurfaced (msg : String)
deriving DecidableEq, Repr

/-- The routing decision of `DistributedInferenceService.chat`: it switches on
`getOptimalMode()`; the `'distributed'` arm calls `distributedChat`, whose
first statement throws `localAIUnavailableError` when the backend is not
available (before any request state is touched), so an unavailable backend in
distributed mode surfaces an error instead of silently running locally. The
(unreachable) `'hybrid'` arm of the switch is transcribed as well. -/
def chatRoute (configMode : InferenceMode) (localAIAvailable : Bool)
    (peerCount : Nat) : RouteOutcome :=
  match getOptimalMode configMode localAIAvailable peerCount with
  | .localMode => .routedLocal
  | .distributedMode =>
      if localAIAvailable then .routedDistributed
      else .errorSurfaced localAIUnavailableError
  | .hybridMode =>
      if localAIAvailable && decide (0 < peerCount) then
        (if localAIAvailable then .routedDistributed
         else .errorSurfaced localAIUnavailableError)
      else .routedLocal

/-! ### HTTP calls issued to the backend (timeout options as passed to fetch) -/

/-- The shape of one backend HTTP call: URL, method, and the `timeout` option
passed in the fetch options object (`none` when the options carry no timeout
at all). -/
structure HttpCallSpec where
  url : String
  method : String
  timeoutMs : Option Nat
deriving DecidableEq, Repr

/-- `checkLocalAI`: `fetch(endpoint + "/v1/models", { timeout: 2000 })`. -/
def checkLocalAIRequest (endpoint : String) : HttpCallSpec :=
  { url := endpoint ++ "/v1/models", method := "GET", timeoutMs := some 2000 }

/-- The chat-completions call inside `distributedChat`:
`fetch(endpoint + "/v1/chat/completions", { method, headers, body })` — the
options object contains no timeout entry. -/
def chatCompletionsRequest (endpoint : String) : HttpCallSpec :=
  { url := endpoint ++ "/v1/chat/completions", method := "POST",
    timeoutMs := none }

/-- `collectMetrics`: `fetch(endpoint + "/metrics", { timeout: 1000 })`. -/
def metricsRequest (endpoint : String) : HttpCallSpec :=
  { url := endpoint ++ "/metrics", method := "GET", timeoutMs := some 1000 }

/-! ### Discovery loop timing constants -/

/-- First `NativeP2PDiscovery` variant: `setInterval(announceService, 30000)`. -/
def announceIntervalMsV1 : Nat := 30000

/-- First `NativeP2PDiscovery` variant: `setInterval(queryPeers, 10000)`. -/
def queryIntervalMsV1 : Nat := 10000

/-- Second `NativeP2PDiscovery` variant: `setInterval(announceService, 20000)`. -/
def announceIntervalMsV2 : Nat := 20000

/-- Second `NativeP2PDiscovery` variant: `setInterval(queryPeers, 5000)`. -/
def queryIntervalMsV2 : Nat := 5000

/-- Both variants: `setInterval(cleanupStalePeers, 15000)`. -/
def sweepIntervalMs : Nat := 15000

/-- Both variants: `cleanupStalePeers` uses `timeout = 45000`. -/
def staleTimeoutMs : Nat := 45000

/-! ### NativeP2PDiscovery peer model -/

/-- `SystemSpecs` as carried in a received advertisement (second variant);
`memory`/`vram` come from `parseInt` and are `none` when that yields `NaN`. -/
structure SystemSpecs where
  cpu : String
  memory : Option Int
  vram : Option Int
  platform : String
  arch : String
deriving DecidableEq, Repr

/-- `Peer` of `NativeP2PDiscovery`. The `id` field is copied from the TXT
data, which may lack an `id` key (JavaScript `undefined`), hence `Option`.
The first variant has no `specs` field; it is `none` there. -/
structure Peer where
  id : Option String
  name : String
  address : String
  port : Nat
  userAgent : String
  lastSeen : Int
  specs : Option SystemSpecs
deriving DecidableEq, Repr

/-- The peer registry: the `Map` entries of `this.peers` in insertion order. -/
abbrev PeerRegistry := List (Option String × Peer)

/-- One entry of `cleanupStalePeers`'s loop condition:
`now - peer.lastSeen > timeout`. -/
def isStalePeer (now timeout : Int) (p : Peer) : Bool :=
  decide (timeout < now - p.lastSeen)

/-- The loop body of `cleanupStalePeers` generalized over `now` and
`timeout`: walk the registry entries in order; a stale entry is deleted and
its peer emitted as a `peer-lost` event, a fresh entry is kept. Returns the
remaining registry and the emitted events in order. -/
def sweepStale (now timeout : Int) : PeerRegistry → PeerRegistry × List Peer
  | [] => ([], [])
  | e :: rest =>
      let tail := sweepStale now timeout rest
      if isStalePeer now timeout e.2 then (tail.1, e.2 :: tail.2)
      else (e :: tail.1, tail.2)

/-- `cleanupStalePeers` (both variants): the sweep with the hardcoded
45-second timeout. -/
def cleanupStalePeers (now : Int) (peers : PeerRegistry) :
    PeerRegistry × List Peer :=
  sweepStale now (staleTimeoutMs : Int) peers

/-! ### Metrics recorder (collectMetrics push and trim) -/

/-- `ComputeMetrics` of `DistributedInferenceService`. -/
structure ComputeMetrics where
  peerId : String
  cpuUsage : Int
  memoryUsage : Int
  tokensProcessed : Nat
  latency : Int
  timestamp : Int
  layersHandled : List Nat
deriving DecidableEq, Repr

/-- `maxMetricsHistory = 100`, the ring-buffer capacity. -/
def maxMetricsHistory : Nat := 100

/-- The trim step of `collectMetrics`:
`if (history.length > maxMetricsHistory) history = history.slice(-maxMetricsHistory)`,
i.e. keep the last `maxMetricsHistory` samples. -/
def trimHistory (h : List ComputeMetrics) : List ComputeMetrics :=
  if maxMetricsHistory < h.length then h.drop (h.length - maxMetricsHistory)
  else h

/-- One insertion round of `collectMetrics`: push a batch of samples (one per
peer) onto the history, then trim. -/
def pushAndTrim (h batch : List ComputeMetrics) : List ComputeMetrics :=
  trimHistory (h ++ batch)

/-! ### Compute distribution (getComputeDistribution) -/

/-- Specs field of `PeerDevice`. -/
structure PeerSpecs where
  cpu : String
  memory : Int
  gpuLayers : Int
deriving DecidableEq, Repr

/-- `PeerDevice` of `DistributedInferenceService`; `status` is one of
`"connected" | "disconnected" | "busy"`. -/
structure PeerDevice where
  id : String
  name : String
  address : String
  port : Nat
  status : String
  specs : Option PeerSpecs
  lastSeen : Int
  contribution : Int
deriving DecidableEq, Repr

/-- One value of the `peerMetrics` grouping map: the peer's running token sum
and its pushed latencies. -/
structure PeerGroup where
  tokens : Nat
  latencies : List Int
deriving DecidableEq, Repr

/-- One loop iteration of the grouping in `getComputeDistribution`: create
the entry on first sight of a `peerId` (tokens 0, no latencies), then add the
sample's tokens and push its latency. -/
def addMetric (acc : List (String × PeerGroup)) (m : ComputeMetrics) :
    List (String × PeerGroup) :=
  if acc.any (fun e => e.1 = m.peerId) then
    acc.map (fun e =>
      if e.1 = m.peerId then
        (e.1, { tokens := e.2.tokens + m.tokensProcessed,
                latencies := e.2.latencies ++ [m.latency] })
      else e)
  else
    acc ++ [(m.peerId, { tokens := m.tokensProcessed,
                         latencies := [m.latency] })]

/-- The `peerMetrics` map of `getComputeDistribution`, as its entries in
insertion order. -/
def peerMetricsOf (history : List ComputeMetrics) :
    List (String × PeerGroup) :=
  history.foldl addMetric []

/-- One element of the returned `distribution` array. -/
structure DistributionEntry where
  peerId : String
  peerName : String
  percentage : ℚ
  tokensProcessed : Nat
  avgLatency : ℚ
deriving DecidableEq, Repr

/-- JavaScript `x || d` on an optional string: the default replaces both a
missing value and the empty string. -/
def jsOrStr (o : Option String) (d : String) : String :=
  match o with
  | none => d
  | some s => if s = "" then d else s

/-- Build one distribution entry from a grouping entry:
`percentage = totalTokens > 0 ? (tokens / totalTokens) * 100 : 0`,
`peerName = peers.get(peerId)?.name || peerId`,
`avgLatency = sum(latencies) / latencies.length`. -/
def mkDistributionEntry (peers : List (String × PeerDevice))
    (totalTokens : Nat) (e : String × PeerGroup) : DistributionEntry :=
  { peerId := e.1
    peerName := jsOrStr (((peers.find? (fun p => p.1 = e.1)).map
      (fun p => p.2.name))) e.1
    percentage :=
      if 0 < totalTokens then
        ((e.2.tokens : ℚ) / (totalTokens : ℚ)) * 100
      else 0
    tokensProcessed := e.2.tokens
    avgLatency := ((e.2.latencies.sum : ℚ)) / ((e.2.latencies.length : ℚ)) }

/-- Descending order on distribution entries, as induced by the comparator
`(a, b) => b.percentage - a.percentage`. -/
def distGE (a b : DistributionEntry) : Prop := b.percentage ≤ a.percentage

instance : DecidableRel distGE := fun a b =>
  inferInstanceAs (Decidable (b.percentage ≤ a.percentage))

instance : IsTotal DistributionEntry distGE :=
  ⟨fun a b => le_total b.percentage a.percentage⟩

instance : IsTrans DistributionEntry distGE :=
  ⟨fun _ _ _ hab hbc => le_trans hbc hab⟩

/-- `getComputeDistribution`: empty history yields `(0, [])`; otherwise group
the buffer by peer id, compute the token total over the groups, build one
entry per group and sort descending by percentage. -/
def getComputeDistribution (peers : List (String × PeerDevice))
    (history : List ComputeMetrics) : Nat × List DistributionEntry :=
  if history.length = 0 then (0, [])
  else
    let pm := peerMetricsOf history
    let totalTokens := (pm.map (fun e => e.2.tokens)).sum
    let distribution := pm.map (mkDistributionEntry peers totalTokens)
    (totalTokens, distribution.insertionSort distGE)

/-! ### Distributed chat dispatch (distributedChat / collectMetrics) -/

/-- `currentRequest` of `DistributedInferenceService`. -/
structure InFlightRequest where
  id : String
  startTime : Int
  peersInvolved : List String
deriving DecidableEq, Repr

/-- Outcome of one awaited `fetch`: `networkError` models a rejected promise
(connection failure, timeout); `success ok statusText body` models a resolved
response with its `ok` flag, where `body = none` models a `response.json()`
call that throws. -/
inductive FetchOutcome (β : Type) where
| success (ok : Bool) (statusText : String) (body : Option β)
| networkError (msg : String)

/-- Parsed body of the chat-completions response, following the plain
member access `data.choices[0].message.content`: `message = none` models
`data.choices[0].message` being undefined (missing or empty `choices`, or a
choice without `message`), which makes the trailing `.content` access throw;
`message = some none` models a present `message` object without a `content`
member, where the access evaluates to `undefined` without throwing;
`message = some (some text)` is the well-formed case. `usageTokens` is
`data.usage?.total_tokens`. -/
structure ChatCompletionBody where
  message : Option (Option String)
  usageTokens : Option Nat
deriving DecidableEq, Repr

/-- Per-peer fields looked up in the `/metrics` response:
`metrics[peerId]?.cpu`, `?.memory`, `?.layers`. -/
structure PeerStats where
  cpu : Option Int
  memory : Option Int
  layers : Option (List Nat)

/-- `collectMetrics`: fetch `/metrics` with a 1 s timeout; on a 2xx response
with parseable JSON, push one sample per connected peer (tokens from the chat
usage, latency and timestamp from the request), then trim the history; on
any failure leave the history unchanged — metrics are optional telemetry and
this function never throws. -/
def collectMetrics (metricsFetch : FetchOutcome (String → Option PeerStats))
    (peers : List (String × PeerDevice)) (usageTokens : Option Nat)
    (latency : Int) (nowTime : Int) (history : List ComputeMetrics) :
    List ComputeMetrics :=
  match metricsFetch with
  | .networkError _ => history
  | .success ok _ body =>
      if ok then
        match body with
        | none => history
        | some metrics =>
            trimHistory (history ++ peers.map (fun e =>
              { peerId := e.1
                cpuUsage := ((metrics e.1).bind (fun st => st.cpu)).getD 0
                memoryUsage :=
                  ((metrics e.1).bind (fun st => st.memory)).getD 0
                tokensProcessed := usageTokens.getD 0
                latency := latency
                timestamp := nowTime
                layersHandled :=
                  ((metrics e.1).bind (fun st => st.layers)).getD [] }))
      else history

/-- Result of one `distributedChat` call: the value returned to (or error
propagated to) the caller — `Except.ok none` is a promise resolving with
`undefined` — the `currentRequest` slot after the call, the metrics history
after the call, and how many times `localChat` ran. -/
structure DistChatResult where
  result : Except String (Option String)
  currentRequest : Option InFlightRequest
  recordedRequest : Option InFlightRequest
  metricsHistory : List ComputeMetrics
  localCalls : Nat

/-- `distributedChat`: throw `localAIUnavailableError` when the backend is
unavailable (leaving `currentRequest` untouched); otherwise record the
in-flight request (fresh id, snapshot of the registry keys — returned in
`recordedRequest`), await the chat-completions fetch, and
 - on a resolved 2xx response with parseable JSON: collect metrics, clear
   `currentRequest`, and return `data.choices[0].message.content` — when
   `data.choices[0].message` is undefined that access throws and the catch
   block clears `currentRequest` again and falls back, but when the
   `message` object exists and merely lacks `content` the access evaluates
   to `undefined`, which is returned without any fallback;
 - on any thrown error (network failure, non-2xx status, malformed JSON,
   undefined `message`): clear `currentRequest` and return the result of
   exactly one `localChat` call with the same message (whose own error, if
   any, propagates unchanged). -/
def distributedChat (localAIAvailable : Bool)
    (currentRequest0 : Option InFlightRequest)
    (peers : List (String × PeerDevice)) (requestId : String)
    (nowTime : Int) (chatFetch : FetchOutcome ChatCompletionBody)
    (metricsFetch : FetchOutcome (String → Option PeerStats))
    (latency : Int) (localResult : Except String String)
    (history : List ComputeMetrics) : DistChatResult :=
  if !localAIAvailable then
    { result := .error localAIUnavailableError,
      currentRequest := currentRequest0, recordedRequest := none,
      metricsHistory := history, localCalls := 0 }
  else
    let inflight : InFlightRequest :=
      { id := requestId, startTime := nowTime,
        peersInvolved := peers.map (fun e => e.1) }
    match chatFetch with
    | .networkError _ =>
        { result := localResult.map some, currentRequest := none,
          recordedRequest := some inflight, metricsHistory := history,
          localCalls := 1 }
    | .success ok _ body =>
        if !ok then
          { result := localResult.map some, currentRequest := none,
            recordedRequest := some inflight, metricsHistory := history,
            localCalls := 1 }
        else
          match body with
          | none =>
              { result := localResult.map some, currentRequest := none,
                recordedRequest := some inflight, metricsHistory := history,
                localCalls := 1 }
          | some data =>
              let history2 := collectMetrics metricsFetch peers
                data.usageTokens latency nowTime history
              match data.message with
              | none =>
                  { result := localResult.map some, currentRequest := none,
                    recordedRequest := some inflight,
                    metricsHistory := history2, localCalls := 1 }
              | some content =>
                  { result := .ok content, currentRequest := none,
                    recordedRequest := some inflight,
                    metricsHistory := history2, localCalls := 0 }

/-- A chat-completions fetch outcome on which the dispatch throws: a
rejected promise, a non-2xx response, unparseable JSON, or a body whose
`data.choices[0].message` is undefined (making the `.content` access throw).
A body whose `message` object exists but lacks `content` does NOT throw. -/
def chatFetchThrows : FetchOutcome ChatCompletionBody → Bool
  | .networkError _ => true
  | .success ok _ body =>
      !ok ||
        (match body with
         | none => true
         | some data => data.message.isNone)

/-! ### mDNS response ingestion (handleResponse) -/

/-- The mDNS service type announced and queried by the discovery loop. -/
def serviceType : String := "_latentra._tcp.local"

/-- Payload of an SRV resource record. -/
structure SrvData where
  port : Nat
  target : String
  priority : Nat
  weight : Nat
deriving DecidableEq, Repr

/-- A DNS resource record as seen by `handleResponse`; `addrR` covers both
A and AAAA records (the code treats them alike). -/
inductive DnsRecord where
| ptrR (name : String) (data : String)
| srvR (name : String) (data : SrvData)
| txtR (name : String) (data : List String)
| addrR (name : String) (data : String)
deriving DecidableEq, Repr

/-- `records.filter(a => a.type === 'PTR')`. -/
def ptrRecords (rs : List DnsRecord) : List (String × String) :=
  rs.filterMap (fun r =>
    match r with
    | .ptrR n d => some (n, d)
    | _ => none)

/-- `records.filter(a => a.type === 'SRV')`. -/
def srvRecords (rs : List DnsRecord) : List (String × SrvData) :=
  rs.filterMap (fun r =>
    match r with
    | .srvR n d => some (n, d)
    | _ => none)

/-- `records.filter(a => a.type === 'TXT')`. -/
def txtRecords (rs : List DnsRecord) : List (String × List String) :=
  rs.filterMap (fun r =>
    match r with
    | .txtR n d => some (n, d)
    | _ => none)

/-- `records.filter(a => a.type === 'A' || a.type === 'AAAA')`. -/
def addrRecords (rs : List DnsRecord) : List (String × String) :=
  rs.filterMap (fun r =>
    match r with
    | .addrR n d => some (n, d)
    | _ => none)

/-- JavaScript `s.includes(pat)`: substring containment. -/
def strContains (s pat : String) : Bool :=
  (List.range (s.data.length + 1)).any
    (fun i => pat.data.isPrefixOf (s.data.drop i))

/-- Split a character list at the first `'='`: what precedes it and what
follows it (everything, later `'='` signs included; empty when absent). -/
def splitKVChars : List Char → List Char × List Char
  | [] => ([], [])
  | c :: rest =>
      if c = '=' then ([], rest)
      else
        let r := splitKVChars rest
        (c :: r.1, r.2)

/-- `const [key, ...valueParts] = str.split('=')` with
`valueParts.join('=')` as the value: the key is the part before the first
`'='` and the value is everything after it. -/
def splitKV (s : String) : String × String :=
  let r := splitKVChars s.data
  (String.mk r.1, String.mk r.2)

/-- The `txtData` object built from the TXT items, read at `key`; later
items overwrite earlier ones, a missing key is JavaScript `undefined`. -/
def txtLookup (items : List String) (key : String) : Option String :=
  items.foldl (fun acc item =>
    if (splitKV item).1 = key then some (splitKV item).2 else acc) none

/-- The digits part of JavaScript `parseInt`: the longest leading run of
decimal digits, `none` when there is none (`NaN`). -/
def parseDigits (cs : List Char) : Option Nat :=
  let ds := cs.takeWhile (fun c => c.isDigit)
  if ds.isEmpty then none
  else some (ds.foldl (fun a c => a * 10 + (c.toNat - 48)) 0)

/-- JavaScript `parseInt(s)` for base 10: skip leading whitespace, accept an
optional sign, parse leading digits; `none` models `NaN`. -/
def jsParseInt (s : String) : Option Int :=
  match s.data.dropWhile (fun c => c.isWhitespace) with
  | '-' :: rest => (parseDigits rest).map (fun n => -(n : Int))
  | '+' :: rest => (parseDigits rest).map (fun n => (n : Int))
  | rest => (parseDigits rest).map (fun n => (n : Int))

/-- `this.peers.set(key, peer)`: overwrite in place when the key exists,
append otherwise. -/
def upsertPeer (peers : PeerRegistry) (k : Option String) (p : Peer) :
    PeerRegistry :=
  if peers.any (fun e => e.1 = k) then
    peers.map (fun e => if e.1 = k then (k, p) else e)
  else peers ++ [(k, p)]

/-- Ingestion state of one `handleResponse` call: the registry and the
`peer-discovered` events emitted so far. -/
structure DiscoveryIngest where
  peers : PeerRegistry
  discoveredEvents : List Peer
deriving DecidableEq, Repr

/-- One iteration of `handleResponse`'s loop over the PTR records: skip a PTR
not naming the service type; correlate the SRV and TXT records by instance
name and skip if either is missing; discard the advertisement when its TXT
`id` equals the local device id (self-filtering); skip if no A/AAAA record
resolves the SRV target; otherwise build the `Peer` (second-variant fields,
including `specs`), upsert it by id, and emit `peer-discovered` iff the id
was not yet present. -/
def processPtr (deviceId : String) (nowTime : Int) (rs : List DnsRecord)
    (st : DiscoveryIngest) (ptr : String × String) : DiscoveryIngest :=
  if !(strContains ptr.2 serviceType) then st
  else
    match (srvRecords rs).find? (fun s => s.1 = ptr.2),
          (txtRecords rs).find? (fun t => t.1 = ptr.2) with
    | some srv, some txt =>
        if txtLookup txt.2 "id" = some deviceId then st
        else
          match (addrRecords rs).find? (fun a => a.1 = srv.2.target) with
          | none => st
          | some aRec =>
              let peer : Peer :=
                { id := txtLookup txt.2 "id"
                  name := jsOrStr (txtLookup txt.2 "name") "Unknown Device"
                  address := aRec.2
                  port := srv.2.port
                  userAgent :=
                    jsOrStr (txtLookup txt.2 "platform") "unknown" ++ "/" ++
                      jsOrStr (txtLookup txt.2 "arch") "unknown"
                  lastSeen := nowTime
                  specs := some
                    { cpu := jsOrStr (txtLookup txt.2 "cpu") "Unknown"
                      memory :=
                        jsParseInt (jsOrStr (txtLookup txt.2 "memory") "0")
                      vram :=
                        jsParseInt (jsOrStr (txtLookup txt.2 "vram") "0")
                      platform :=
                        jsOrStr (txtLookup txt.2 "platform") "unknown"
                      arch := jsOrStr (txtLookup txt.2 "arch") "unknown" } }
              let isNewPeer := !(st.peers.any (fun e => e.1 = peer.id))
              { peers := upsertPeer st.peers peer.id peer
                discoveredEvents :=
                  if isNewPeer then st.discoveredEvents ++ [peer]
                  else st.discoveredEvents }
    | _, _ => st

/-- The loop of `handleResponse` over all PTR records of one packet. -/
def handleRecords (deviceId : String) (nowTime : Int) (rs : List DnsRecord)
    (st : DiscoveryIngest) : DiscoveryIngest :=
  (ptrRecords rs).foldl (processPtr deviceId nowTime rs) st

/-- First-variant `handleResponse`: only the answers section is scanned. -/
def handleResponseV1 (deviceId : String) (nowTime : Int)
    (answers : List DnsRecord) (st : DiscoveryIngest) : DiscoveryIngest :=
  handleRecords deviceId nowTime answers st

/-- Second-variant `handleResponse`: answers and additionals are scanned. -/
def handleResponseV2 (deviceId : String) (nowTime : Int)
    (answers additionals : List DnsRecord) (st : DiscoveryIngest) :
    DiscoveryIngest :=
  handleRecords deviceId nowTime (answers ++ additionals) st

/-- The TXT `id` correlated to one advertised instance name in a packet. -/
def adTxtId (rs : List DnsRecord) (instanceName : String) : Option String :=
  ((txtRecords rs).find? (fun t => t.1 = instanceName)).bind
    (fun t => txtLookup t.2 "id")

/-! ### Discovery loop start/stop lifecycle (timers and socket) -/

/-- The three periodic timers created by `start()`. -/
inductive TimerKind where
| announceTimer
| queryTimer
| cleanupTimer
deriving DecidableEq, Repr

/-- Lifecycle state of one `NativeP2PDiscovery` instance: whether it reports
running, whether the multicast socket is open, the peer registry, the timers
scheduled in the runtime and not yet cancelled, and which interval handles
the object retained in fields (`cleanupInterval`, and in the second variant
`announceInterval` / `queryInterval`). -/
structure P2PLifecycle where
  isRunning : Bool
  mdnsOpen : Bool
  peers : PeerRegistry
  activeTimers : List TimerKind
  announceHandle : Bool
  queryHandle : Bool
  cleanupHandle : Bool
deriving DecidableEq, Repr

/-- The freshly constructed instance: not running, no socket, no peers, no
timers. -/
def initLifecycle : P2PLifecycle :=
  { isRunning := false, mdnsOpen := false, peers := [],
    activeTimers := [], announceHandle := false, queryHandle := false,
    cleanupHandle := false }

/-- `start()` of the first variant: no-op when already running; otherwise
opens the socket and schedules the announce, query and cleanup timers, but
retains a handle only to the cleanup timer — the announce and query
`setInterval` results are discarded. -/
def startV1 (s : P2PLifecycle) : P2PLifecycle :=
  if s.isRunning then s
  else
    { s with
      isRunning := true, mdnsOpen := true,
      activeTimers := s.activeTimers ++
        [.announceTimer, .queryTimer, .cleanupTimer],
      announceHandle := false, queryHandle := false, cleanupHandle := true }

/-- `stop()` of the first variant: no-op when not running; otherwise destroys
the socket, cancels only the retained cleanup timer, clears the registry and
marks the instance stopped. The announce and query timers stay scheduled. -/
def stopV1 (s : P2PLifecycle) : P2PLifecycle :=
  if !s.isRunning then s
  else
    { s with
      mdnsOpen := false,
      activeTimers :=
        if s.cleanupHandle then
          s.activeTimers.filter (fun t => t ≠ .cleanupTimer)
        else s.activeTimers,
      cleanupHandle := false,
      peers := [], isRunning := false }

/-- `start()` of the second variant: as the first, but all three interval
handles are retained in fields. -/
def startV2 (s : P2PLifecycle) : P2PLifecycle :=
  if s.isRunning then s
  else
    { s with
      isRunning := true, mdnsOpen := true,
      activeTimers := s.activeTimers ++
        [.announceTimer, .queryTimer, .cleanupTimer],
      announceHandle := true, queryHandle := true, cleanupHandle := true }

/-- `stop()` of the second variant: destroys the socket, cancels every
retained timer (cleanup, announce, query), clears the registry, marks the
instance stopped. -/
def stopV2 (s : P2PLifecycle) : P2PLifecycle :=
  if !s.isRunning then s
  else
    { s with
      mdnsOpen := false,
      activeTimers :=
        let t1 :=
          if s.cleanupHandle then
            s.activeTimers.filter (fun t => t ≠ .cleanupTimer)
          else s.activeTimers
        let t2 :=
          if s.announceHandle then
            t1.filter (fun t => t ≠ .announceTimer)
          else t1
        if s.queryHandle then t2.filter (fun t => t ≠ .queryTimer) else t2,
      cleanupHandle := false, announceHandle := false, queryHandle := false,
      peers := [], isRunning := false }

/-! ### Theorems for claims C1, C3, C4 -/

/-- C1: the routing decision is a pure function of
`(mode, backendAvailable, peerCount)` and matches the spec table: LocalOnly
always routes Local; DistributedOnly routes Distributed when the backend is
available and surfaces an error (never silently Local) when it is not; Hybrid
routes Distributed iff the backend is available and at least one peer is
connected, else Local. -/
theorem mode_decision_table (avail : Bool) (peerCount : Nat) :
    chatRoute .localMode avail peerCount = .routedLocal ∧
    chatRoute .distributedMode true peerCount = .routedDistributed ∧
    chatRoute .distributedMode false peerCount =
      .errorSurfaced localAIUnavailableError ∧
    chatRoute .hybridMode avail peerCount =
      (if avail && decide (0 < peerCount) then .routedDistributed
       else .routedLocal) := by
  refine ⟨?_, ?_, ?_, ?_⟩ <;>
    cases avail <;>
    rcases Nat.eq_zero_or_pos peerCount with h | h <;>
    simp_all [chatRoute, getOptimalMode, Nat.pos_iff_ne_zero]

/-- C3: the health probe is issued with an explicit 2000 ms timeout, but the
chat-completions call inside the distributed dispatch is issued with no
timeout option at all, so that call can wait unboundedly — contradicting the
claim that every backend HTTP call carries an explicit bounded timeout. -/
theorem backend_call_timeouts (endpoint : String) :
    (checkLocalAIRequest endpoint).timeoutMs = some 2000 ∧
    (chatCompletionsRequest endpoint).timeoutMs = none := by
  exact ⟨rfl, rfl⟩

/-- C4: the 45-second staleness timeout exceeds two announce intervals for the
second discovery-loop variant (20 s announce), but not for the first variant
(30 s announce), where a single lost announce packet can cause eviction. -/
theorem announce_timeout_relation :
    2 * announceIntervalMsV2 < staleTimeoutMs ∧
    ¬ (2 * announceIntervalMsV1 < staleTimeoutMs) := by
  decide

/-- C5: after `start()` then `stop()` on the first variant, the announce and
query timers created by `start()` are still scheduled (their handles were
never retained, so `stop()` cannot cancel them) — their callbacks keep firing
after `stop()` returns. The second variant cancels all three timers and closes
the socket; both variants clear the registry, and calling `start()` while
running is a no-op in both. -/
theorem stop_v1_leaves_timers :
    (stopV1 (startV1 initLifecycle)).activeTimers =
      [.announceTimer, .queryTimer] ∧
    (stopV1 (startV1 initLifecycle)).peers = [] ∧
    (stopV2 (startV2 initLifecycle)).activeTimers = [] ∧
    (stopV2 (startV2 initLifecycle)).mdnsOpen = false ∧
    (stopV2 (startV2 initLifecycle)).peers = [] ∧
    startV1 (startV1 initLifecycle) = startV1 initLifecycle ∧
    startV2 (startV2 initLifecycle) = startV2 initLifecycle := by
  decide

/-- C6: after `SweepStale(now, timeout)` every remaining registry entry
satisfies `now - lastSeenAt ≤ timeout`; the remaining entries are exactly the
non-stale ones, and a `peer-lost` event is emitted for exactly the removed
records, in registry order. -/
theorem sweep_stale_invariant (now timeout : Int) (peers : PeerRegistry) :
    (∀ e ∈ (sweepStale now timeout peers).1,
      now - e.2.lastSeen ≤ timeout) ∧
    (sweepStale now timeout peers).1 =
      peers.filter (fun e => !isStalePeer now timeout e.2) ∧
    (sweepStale now timeout peers).2 =
      (peers.filter (fun e => isStalePeer now timeout e.2)).map (·.2) := by
  have h23 : (sweepStale now timeout peers).1 =
      peers.filter (fun e => !isStalePeer now timeout e.2) ∧
      (sweepStale now timeout peers).2 =
        (peers.filter (fun e => isStalePeer now timeout e.2)).map (·.2) := by
    induction peers with
    | nil => simp [sweepStale]
    | cons e rest ih =>
        by_cases h : isStalePeer now timeout e.2 <;>
          simp [sweepStale, h, ih.1, ih.2]
  refine ⟨?_, h23.1, h23.2⟩
  intro e he
  rw [h23.1] at he
  have hkeep := List.of_mem_filter he
  simp only [Bool.not_eq_true', isStalePeer, decide_eq_false_iff_not,
    not_lt] at hkeep
  omega

/-- A stale demo peer (last seen 10 s into the epoch). -/
def demoPeerStale : Peer :=
  { id := some "a", name := "A", address := "10.0.0.1", port := 8080,
    userAgent := "darwin/arm64", lastSeen := 10000, specs := none }

/-- A fresh demo peer (last seen 90 s into the epoch). -/
def demoPeerFresh : Peer :=
  { id := some "b", name := "B", address := "10.0.0.2", port := 8080,
    userAgent := "linux/x64", lastSeen := 90000, specs := none }

/-- Demo registry holding the stale and the fresh peer. -/
def demoRegistryC6 : PeerRegistry :=
  [(some "a", demoPeerStale), (some "b", demoPeerFresh)]

/-- C6 witness: at `now = 100000` with a 45-second timeout, the fresh entry
survives the sweep within the staleness bound, and the stale peer is exactly
the emitted `peer-lost` event. -/
theorem sweep_stale_invariant_witness :
    (100000 : Int) - demoPeerFresh.lastSeen ≤ 45000 ∧
    (sweepStale 100000 45000 demoRegistryC6).2 = [demoPeerStale] :=
  ⟨(sweep_stale_invariant 100000 45000 demoRegistryC6).1
      (some "b", demoPeerFresh) (by decide),
   by rw [(sweep_stale_invariant 100000 45000 demoRegistryC6).2.2]; decide⟩

/-- The trim keeps exactly the last `maxMetricsHistory` samples: it equals
take-from-the-right. -/
lemma trimHistory_eq_reverse_take (l : List ComputeMetrics) :
    trimHistory l = (l.reverse.take maxMetricsHistory).reverse := by
  unfold trimHistory
  by_cases h : maxMetricsHistory < l.length
  · rw [if_pos h]
    have hrev : (l.drop (l.length - maxMetricsHistory)).reverse =
        l.reverse.take maxMetricsHistory := by
      rw [List.reverse_drop]
      congr 1
      omega
    rw [← List.reverse_reverse (l.drop (l.length - maxMetricsHistory)), hrev]
  · rw [if_neg h,
      List.take_of_length_le (by rw [List.length_reverse]; omega),
      List.reverse_reverse]

/-- Taking `n` from `a ++ b.take n` is the same as taking `n` from `a ++ b`. -/
lemma take_append_take (a b : List ComputeMetrics) (n : Nat) :
    (a ++ b.take n).take n = (a ++ b).take n := by
  rw [List.take_append_eq_append_take, List.take_append_eq_append_take,
    List.take_take]
  congr 2
  omega

/-- Trimming an already-trimmed history extended by a batch is the same as
trimming the un-trimmed history extended by the batch. -/
lemma trimHistory_append_trim (x y : List ComputeMetrics) :
    trimHistory (trimHistory x ++ y) = trimHistory (x ++ y) := by
  rw [trimHistory_eq_reverse_take x, trimHistory_eq_reverse_take,
    trimHistory_eq_reverse_take (x ++ y), List.reverse_append,
    List.reverse_reverse, List.reverse_append, take_append_take]

/-- Folding insertion rounds over a trimmed history trims the concatenation. -/
lemma foldl_pushAndTrim (batches : List (List ComputeMetrics)) :
    ∀ h, batches.foldl pushAndTrim (trimHistory h) =
      trimHistory (h ++ batches.flatten) := by
  induction batches with
  | nil => intro h; simp
  | cons b bs ih =>
      intro h
      have hstep : pushAndTrim (trimHistory h) b = trimHistory (h ++ b) := by
        rw [pushAndTrim, trimHistory_append_trim]
      rw [List.foldl_cons, hstep, ih (h ++ b), List.flatten_cons,
        List.append_assoc]

/-- C7: after inserting more than `maxMetricsHistory` samples (in any
batching) into an initially empty recorder, the buffer holds exactly
`maxMetricsHistory` samples, namely the most recent ones in insertion
order. -/
theorem ring_buffer_bound (batches : List (List ComputeMetrics))
    (hN : maxMetricsHistory < batches.flatten.length) :
    (batches.foldl pushAndTrim []).length = maxMetricsHistory ∧
    batches.foldl pushAndTrim [] =
      batches.flatten.drop (batches.flatten.length - maxMetricsHistory) := by
  have h0 : ([] : List ComputeMetrics) = trimHistory [] := rfl
  rw [h0, foldl_pushAndTrim, List.nil_append, trimHistory, if_pos hN]
  refine ⟨?_, rfl⟩
  rw [List.length_drop]
  omega

/-- A demo metric sample. -/
def mkSample (i : Nat) : ComputeMetrics :=
  { peerId := "p", cpuUsage := 0, memoryUsage := 0, tokensProcessed := i,
    latency := 1, timestamp := Int.ofNat i, layersHandled := [] }

/-- 101 demo samples, one more than the capacity. -/
def sampleSeq : List ComputeMetrics := (List.range 101).map mkSample

/-- C7 witness: inserting 101 samples leaves exactly 100 in the buffer. -/
theorem ring_buffer_bound_witness :
    maxMetricsHistory < ([sampleSeq].flatten).length ∧
    ([sampleSeq].foldl pushAndTrim []).length = maxMetricsHistory :=
  ⟨by norm_num [sampleSeq, maxMetricsHistory],
   (ring_buffer_bound [sampleSeq]
      (by norm_num [sampleSeq, maxMetricsHistory])).1⟩

/-- Distributing a division over a list sum. -/
lemma sum_map_div_mul (l : List Nat) (T : ℚ) :
    (l.map (fun (t : Nat) => ((t : ℚ) / T) * 100)).sum = ((l.sum : ℚ) / T) * 100 := by
  induction l with
  | nil => simp
  | cons a l ih =>
      simp only [List.map_cons, List.sum_cons, ih, List.sum_cons]
      push_cast
      ring

/-- The percentages built over a grouping with positive token total sum to
exactly 100. -/
lemma sum_percentages (peers : List (String × PeerDevice))
    (pm : List (String × PeerGroup))
    (hT : 0 < (pm.map (fun e => e.2.tokens)).sum) :
    ((pm.map (mkDistributionEntry peers
        ((pm.map (fun e => e.2.tokens)).sum))).map
      (fun e => e.percentage)).sum = 100 := by
  set T := (pm.map (fun e => e.2.tokens)).sum with hTdef
  rw [List.map_map]
  have h1 : ((fun (e : DistributionEntry) => e.percentage) ∘
      mkDistributionEntry peers T) =
      (fun (e : String × PeerGroup) =>
        ((e.2.tokens : ℚ) / (T : ℚ)) * 100) := by
    funext e
    simp [mkDistributionEntry, hT]
  rw [h1]
  have h2 : pm.map (fun e => ((e.2.tokens : ℚ) / (T : ℚ)) * 100) =
      (pm.map (fun e => e.2.tokens)).map
        (fun (t : Nat) => ((t : ℚ) / (T : ℚ)) * 100) := by
    rw [List.map_map]
    rfl
  rw [h2, sum_map_div_mul, ← hTdef]
  have hT0 : (T : ℚ) ≠ 0 :=
    Nat.cast_ne_zero.mpr (Nat.pos_iff_ne_zero.mp hT)
  rw [div_self hT0, one_mul]

/-- C8: `getComputeDistribution` returns `(0, [])` on an empty buffer; when
the token total is positive the per-peer percentages sum to exactly 100 (in
exact rational arithmetic standing for the floating-point computation); when
the total is 0 every percentage is 0; and the returned list is sorted
descending by percentage. -/
theorem compute_distribution_spec (peers : List (String × PeerDevice))
    (history : List ComputeMetrics) :
    (history = [] → getComputeDistribution peers history = (0, [])) ∧
    (0 < (getComputeDistribution peers history).1 →
      (((getComputeDistribution peers history).2).map
        (fun e => e.percentage)).sum = 100) ∧
    ((getComputeDistribution peers history).1 = 0 →
      ∀ e ∈ (getComputeDistribution peers history).2, e.percentage = 0) ∧
    List.Sorted distGE (getComputeDistribution peers history).2 := by
  by_cases hh : history.length = 0
  · have hnil : history = [] := List.length_eq_zero.mp hh
    subst hnil
    refine ⟨fun _ => by simp [getComputeDistribution], ?_, ?_, ?_⟩
    · intro h0
      simp [getComputeDistribution] at h0
    · intro _ e he
      simp [getComputeDistribution] at he
    · simp only [getComputeDistribution, if_pos rfl]
      exact List.sorted_nil
  · have hexp : getComputeDistribution peers history =
        (((peerMetricsOf history).map (fun e => e.2.tokens)).sum,
         ((peerMetricsOf history).map (mkDistributionEntry peers
            (((peerMetricsOf history).map (fun e => e.2.tokens)).sum)))
           |>.insertionSort distGE) := by
      unfold getComputeDistribution
      rw [if_neg hh]
    have hperm :
        ((((peerMetricsOf history).map (mkDistributionEntry peers
            (((peerMetricsOf history).map (fun e => e.2.tokens)).sum)))
          |>.insertionSort distGE)).Perm
        ((peerMetricsOf history).map (mkDistributionEntry peers
            (((peerMetricsOf history).map (fun e => e.2.tokens)).sum))) :=
      List.perm_insertionSort distGE _
    refine ⟨fun habs => absurd (by simp [habs]) hh, ?_, ?_, ?_⟩
    · intro hT
      rw [hexp] at hT ⊢
      rw [(hperm.map (fun e => e.percentage)).sum_eq]
      exact sum_percentages peers (peerMetricsOf history) hT
    · intro hT e he
      rw [hexp] at hT he
      have he2 := hperm.mem_iff.mp he
      obtain ⟨x, _, rfl⟩ := List.mem_map.mp he2
      simp only [mkDistributionEntry]
      rw [if_neg]
      omega
    · rw [hexp]
      exact List.sorted_insertionSort distGE _

/-- Demo buffer for the distribution witness: 75 tokens for peer a over one
request, 25 for peer b. -/
def demoHistoryC8 : List ComputeMetrics :=
  [{ peerId := "a", cpuUsage := 10, memoryUsage := 100,
     tokensProcessed := 75, latency := 12, timestamp := 0,
     layersHandled := [] },
   { peerId := "b", cpuUsage := 20, memoryUsage := 200,
     tokensProcessed := 25, latency := 30, timestamp := 0,
     layersHandled := [] }]

/-- C8 witness: on the demo buffer the token total is positive and the
percentages sum to 100. -/
theorem compute_distribution_spec_witness :
    0 < (getComputeDistribution [] demoHistoryC8).1 ∧
    (((getComputeDistribution [] demoHistoryC8).2).map
      (fun e => e.percentage)).sum = 100 :=
  ⟨by decide,
   (compute_distribution_spec [] demoHistoryC8).2.1 (by decide)⟩

/-- The grouping step keeps every group's latency list non-empty. -/
lemma addMetric_latencies_pos (acc : List (String × PeerGroup))
    (m : ComputeMetrics)
    (h : ∀ e ∈ acc, 0 < e.2.latencies.length) :
    ∀ e ∈ addMetric acc m, 0 < e.2.latencies.length := by
  intro e he
  unfold addMetric at he
  by_cases hc : acc.any (fun e => e.1 = m.peerId)
  · rw [if_pos hc] at he
    obtain ⟨x, hx, hxe⟩ := List.mem_map.mp he
    by_cases hx1 : x.1 = m.peerId
    · rw [if_pos hx1] at hxe
      rw [← hxe]
      simp
    · rw [if_neg hx1] at hxe
      rw [← hxe]
      exact h x hx
  · rw [if_neg hc] at he
    rcases List.mem_append.mp he with h1 | h2
    · exact h e h1
    · rw [List.mem_singleton.mp h2]
      simp

/-- C10: every entry of the `peerMetrics` grouping was created from at least
one sample with that peer id, so its latency list is non-empty and the
`avgLatency` division has a strictly positive denominator. -/
theorem peer_group_latency_pos (history : List ComputeMetrics) :
    ∀ e ∈ peerMetricsOf history, 0 < e.2.latencies.length := by
  suffices hgen : ∀ (acc : List (String × PeerGroup)),
      (∀ e ∈ acc, 0 < e.2.latencies.length) →
      ∀ e ∈ history.foldl addMetric acc, 0 < e.2.latencies.length by
    exact hgen [] (by simp)
  induction history with
  | nil =>
      intro acc hacc
      simpa using hacc
  | cons m rest ih =>
      intro acc hacc
      rw [List.foldl_cons]
      exact ih _ (addMetric_latencies_pos acc m hacc)

/-- C10 witness: the single grouping entry produced by a one-sample buffer
has a non-empty latency list. -/
theorem peer_group_latency_pos_witness :
    0 < (("p1", ({ tokens := 10, latencies := [7] } : PeerGroup)) :
      String × PeerGroup).2.latencies.length :=
  peer_group_latency_pos
    [{ peerId := "p1", cpuUsage := 1, memoryUsage := 2,
       tokensProcessed := 10, latency := 7, timestamp := 0,
       layersHandled := [] }]
    ("p1", { tokens := 10, latencies := [7] }) (by decide)

/-- C2 counterexample: a resolved 2xx response whose body is
`{"choices":[{"message":{}}]}` — the `message` object exists but has no
`content` member. The dispatch fails to produce a chat result, yet the plain
member access returns `undefined` without throwing: the caller's promise
resolves with `undefined` (neither a text result nor a local-execution
error) and zero local fallbacks run, refuting the claim that every failing
dispatch performs exactly one fallback. -/
theorem fallback_once_counterexample :
    (distributedChat true none [] "req-1" 0
      (.success true "OK"
        (some { message := some none, usageTokens := none }))
      (.networkError "metrics down") 5 (.ok "local answer")
      []).localCalls = 0 ∧
    (distributedChat true none [] "req-1" 0
      (.success true "OK"
        (some { message := some none, usageTokens := none }))
      (.networkError "metrics down") 5 (.ok "local answer")
      []).result = .ok none := by
  exact ⟨rfl, rfl⟩

/-- C2 (amended): with an available backend, `distributedChat` clears the
`currentRequest` slot on every exit path; whenever the chat-completions
dispatch throws (rejected fetch, non-2xx status, unparseable JSON, or an
undefined `choices[0].message` making the member access throw) it performs
exactly one `localChat` fallback with the same prompt and returns that local
outcome verbatim (the distributed error is never propagated); when nothing
is thrown no fallback runs — including the case of a `message` object
without `content`, where the call resolves with `undefined`. -/
theorem fallback_on_throw_clears (currentRequest0 : Option InFlightRequest)
    (peers : List (String × PeerDevice)) (requestId : String) (nowTime : Int)
    (chatFetch : FetchOutcome ChatCompletionBody)
    (metricsFetch : FetchOutcome (String → Option PeerStats))
    (latency : Int) (localResult : Except String String)
    (history : List ComputeMetrics) :
    (distributedChat true currentRequest0 peers requestId nowTime chatFetch
      metricsFetch latency localResult history).currentRequest = none ∧
    (chatFetchThrows chatFetch = true →
      (distributedChat true currentRequest0 peers requestId nowTime chatFetch
        metricsFetch latency localResult history).result =
        localResult.map some ∧
      (distributedChat true currentRequest0 peers requestId nowTime chatFetch
        metricsFetch latency localResult history).localCalls = 1) ∧
    (chatFetchThrows chatFetch = false →
      (distributedChat true currentRequest0 peers requestId nowTime chatFetch
        metricsFetch latency localResult history).localCalls = 0) := by
  cases chatFetch with
  | networkError m => simp [distributedChat, chatFetchThrows]
  | success ok st body =>
      cases ok <;> rcases body with _ | ⟨(_ | content), usage⟩ <;>
        simp [distributedChat, chatFetchThrows]

/-- C2 witness: a rejected chat-completions promise at concrete inputs —
the caller receives the local result, exactly one local call runs, and the
in-flight slot ends cleared. -/
theorem fallback_on_throw_clears_witness :
    chatFetchThrows
      (FetchOutcome.networkError "fetch failed" :
        FetchOutcome ChatCompletionBody) = true ∧
    (distributedChat true none [] "req-1" 0 (.networkError "fetch failed")
      (.networkError "metrics down") 5 (.ok "local answer") []).result =
      .ok (some "local answer") ∧
    (distributedChat true none [] "req-1" 0 (.networkError "fetch failed")
      (.networkError "metrics down") 5 (.ok "local answer") []).localCalls
      = 1 ∧
    (distributedChat true none [] "req-1" 0 (.networkError "fetch failed")
      (.networkError "metrics down") 5 (.ok "local answer")
      []).currentRequest = none :=
  ⟨rfl,
   ((fallback_on_throw_clears none [] "req-1" 0 (.networkError "fetch failed")
      (.networkError "metrics down") 5 (.ok "local answer") []).2.1 rfl).1,
   ((fallback_on_throw_clears none [] "req-1" 0 (.networkError "fetch failed")
      (.networkError "metrics down") 5 (.ok "local answer") []).2.1 rfl).2,
   (fallback_on_throw_clears none [] "req-1" 0 (.networkError "fetch failed")
      (.networkError "metrics down") 5 (.ok "local answer") []).1⟩

/-- Processing one PTR whose correlated TXT `id` is the local device id
leaves the ingestion state untouched. -/
lemma processPtr_self (deviceId : String) (nowTime : Int)
    (rs : List DnsRecord) (st : DiscoveryIngest) (ptr : String × String)
    (h : adTxtId rs ptr.2 = some deviceId) :
    processPtr deviceId nowTime rs st ptr = st := by
  unfold adTxtId at h
  rcases htxt : (txtRecords rs).find? (fun t => t.1 = ptr.2) with _ | t
  · rw [htxt] at h
    simp at h
  · rw [htxt] at h
    simp only [Option.some_bind] at h
    rcases hsrv : (srvRecords rs).find? (fun s => s.1 = ptr.2) with _ | srv <;>
      simp [processPtr, hsrv, htxt, h]

/-- C9: a received packet every one of whose advertisements carries the local
identity's TXT `id` leaves the peer registry unchanged and emits no
`peer-discovered` event — the self-advertisement is discarded before
reaching the registry. -/
theorem self_filtering (deviceId : String) (nowTime : Int)
    (rs : List DnsRecord) (st : DiscoveryIngest)
    (hself : ∀ p ∈ ptrRecords rs, adTxtId rs p.2 = some deviceId) :
    handleRecords deviceId nowTime rs st = st := by
  unfold handleRecords
  have hgen : ∀ (l : List (String × String)),
      (∀ p ∈ l, adTxtId rs p.2 = some deviceId) →
      ∀ s, l.foldl (processPtr deviceId nowTime rs) s = s := by
    intro l
    induction l with
    | nil =>
        intro _ s
        rfl
    | cons p ps ih =>
        intro hl s
        rw [List.foldl_cons,
          processPtr_self deviceId nowTime rs s p (hl p (by simp))]
        exact ih (fun q hq => hl q (by simp [hq])) s
  exact hgen (ptrRecords rs) hself st

/-- A previously known third peer used in the self-filtering witness. -/
def demoOtherPeer : Peer :=
  { id := some "other-9", name := "Other", address := "192.168.1.9",
    port := 8080, userAgent := "linux/x64", lastSeen := 0, specs := none }

/-- A complete self-advertisement packet: PTR, SRV, TXT (with
`id=self-1`) and an A record resolving the SRV target. -/
def demoSelfRecords : List DnsRecord :=
  [.ptrR serviceType "MyDev._latentra._tcp.local",
   .srvR "MyDev._latentra._tcp.local"
     { port := 8080, target := "myhost.local", priority := 0, weight := 0 },
   .txtR "MyDev._latentra._tcp.local"
     ["id=self-1", "name=MyDev", "platform=darwin", "arch=arm64",
      "cpu=Apple M2", "memory=16", "vram=8"],
   .addrR "myhost.local" "192.168.1.5"]

/-- C9 witness: processing the concrete self-advertisement packet with local
id `self-1` leaves a registry holding one other peer unchanged and emits
nothing. -/
theorem self_filtering_witness :
    handleRecords "self-1" 1000 demoSelfRecords
      { peers := [(some "other-9", demoOtherPeer)], discoveredEvents := [] } =
    { peers := [(some "other-9", demoOtherPeer)], discoveredEvents := [] } :=
  self_filtering "self-1" 1000 demoSelfRecords
    { peers := [(some "other-9", demoOtherPeer)], discoveredEvents := [] }
    (by decide)

end Latentra
